import Mathlib

/-
Verification of the in-memory repository store of the Tech-Radar-Visualization
project (the MemStorage class): five entity collections (technologies,
quadrants, rings, projects, technology-project links) held in insertion-order
maps with per-collection id counters, plus a case-insensitive text search over
technologies.  JavaScript Maps are embedded as association lists in insertion
order, numbers as Int, nullable values as Option, and absent-or-present record
fields of update payloads as an outer Option layer.
-/

namespace TechRadar

/-- Lowercasing as JavaScript's toLowerCase acts on the ASCII strings of this
repository: each character is lowercased. -/
def jsToLower (s : String) : String := ⟨s.toList.map Char.toLower⟩

/-- Does the character list `s` start with `pat`?  One position of the scan
behind JavaScript's String.prototype.includes. -/
def startsWithChars : List Char → List Char → Bool
  | _, [] => true
  | [], _ :: _ => false
  | c :: cs, p :: ps => c == p && startsWithChars cs ps

/-- Does `pat` occur contiguously inside `s`? -/
def containsChars : List Char → List Char → Bool
  | [], pat => startsWithChars [] pat
  | c :: cs, pat => startsWithChars (c :: cs) pat || containsChars cs pat

/-- JavaScript's s.includes(pat). -/
def strIncludes (s pat : String) : Bool := containsChars s.toList pat.toList

/-- JavaScript's s.trim(): drop whitespace from both ends. -/
def jsTrim (s : String) : String :=
  ⟨((s.toList.dropWhile Char.isWhitespace).reverse.dropWhile
      Char.isWhitespace).reverse⟩

/-- The specification-side notion "pat is a substring of s": `pat` occurs
contiguously in `s`.  Proved equivalent to `strIncludes` below. -/
def SubstringOf (pat s : String) : Prop :=
  ∃ l r, l ++ pat.toList ++ r = s.toList

/-- Map.get of a JavaScript Map with integer keys, over the entry list kept in
insertion order. -/
def mapGet {α : Type} : List (Int × α) → Int → Option α
  | [], _ => none
  | p :: rest, k => if p.1 = k then some p.2 else mapGet rest k

/-- Map.set of a JavaScript Map: replace the value of an existing key in
place (keeping its position), otherwise append the new entry at the end. -/
def mapSet {α : Type} : List (Int × α) → Int → α → List (Int × α)
  | [], k, v => [(k, v)]
  | p :: rest, k, v => if p.1 = k then (k, v) :: rest else p :: mapSet rest k v

/-- Array.from(map.values()): the stored values in insertion order. -/
def mapValues {α : Type} (m : List (Int × α)) : List α := m.map Prod.snd

/-- JavaScript's `x || null` applied to a nullable string: absent/null and the
empty string (the only falsy string) collapse to null. -/
def jsFalsyOrNone (s : Option String) : Option String :=
  match s with
  | some s => if s = "" then none else some s
  | none => none

/-- A stored technology.  `website`, `tags` and `custom_properties` are
nullable columns: `some` embeds a JavaScript value, `none` embeds null (for
`tags`, `some l` is the array `l`, so `some []` is the empty array). -/
structure Technology where
  id : Int
  name : String
  description : String
  quadrant : Int
  ring : Int
  website : Option String
  tags : Option (List String)
  custom_properties : Option String
deriving DecidableEq

/-- The insert payload for a technology: name, description, quadrant and ring
are required; the other fields are optional (`none` = absent or null). -/
structure InsertTechnology where
  name : String
  description : String
  quadrant : Int
  ring : Int
  website : Option String := none
  tags : Option (List String) := none
  custom_properties : Option String := none
deriving DecidableEq

/-- An update payload over the insert shape of a technology: the outer Option
says whether the field is named in the payload at all; for nullable fields the
inner Option distinguishes an explicit null (`some none`) from a value. -/
structure TechnologyUpdate where
  name : Option String := none
  description : Option String := none
  quadrant : Option Int := none
  ring : Option Int := none
  website : Option (Option String) := none
  tags : Option (Option (List String)) := none
  custom_properties : Option (Option String) := none
deriving DecidableEq

/-- A stored quadrant. -/
structure Quadrant where
  id : Int
  name : String
  description : String
  color : Option String
deriving DecidableEq

/-- The insert payload for a quadrant. -/
structure InsertQuadrant where
  name : String
  description : String
  color : Option String := none
deriving DecidableEq

/-- An update payload for a quadrant. -/
structure QuadrantUpdate where
  name : Option String := none
  description : Option String := none
  color : Option (Option String) := none
deriving DecidableEq

/-- A stored ring. -/
structure Ring where
  id : Int
  name : String
  description : String
  color : Option String
deriving DecidableEq

/-- The insert payload for a ring. -/
structure InsertRing where
  name : String
  description : String
  color : Option String := none
deriving DecidableEq

/-- An update payload for a ring. -/
structure RingUpdate where
  name : Option String := none
  description : Option String := none
  color : Option (Option String) := none
deriving DecidableEq

/-- A stored project. -/
structure Project where
  id : Int
  name : String
  description : String
  status : String
  website : Option String
  repository : Option String
  image : Option String
deriving DecidableEq

/-- The insert payload for a project. -/
structure InsertProject where
  name : String
  description : String
  status : String
  website : Option String := none
  repository : Option String := none
  image : Option String := none
deriving DecidableEq

/-- An update payload for a project. -/
structure ProjectUpdate where
  name : Option String := none
  description : Option String := none
  status : Option String := none
  website : Option (Option String) := none
  repository : Option (Option String) := none
  image : Option (Option String) := none
deriving DecidableEq

/-- A stored technology-project link. -/
structure TechnologyProject where
  id : Int
  technology_id : Int
  project_id : Int
  notes : Option String
deriving DecidableEq

/-- The insert payload for a technology-project link. -/
structure InsertTechnologyProject where
  technology_id : Int
  project_id : Int
  notes : Option String := none
deriving DecidableEq

/-- An update payload for a technology-project link. -/
structure TechnologyProjectUpdate where
  technology_id : Option Int := none
  project_id : Option Int := none
  notes : Option (Option String) := none
deriving DecidableEq

/-- The MemStorage state: the five collections as insertion-order maps and the
five per-collection id counters. -/
structure MemStorage where
  technologies : List (Int × Technology)
  quadrants : List (Int × Quadrant)
  rings : List (Int × Ring)
  projects : List (Int × Project)
  technologyProjects : List (Int × TechnologyProject)
  techCurrentId : Int
  quadrantCurrentId : Int
  ringCurrentId : Int
  projectCurrentId : Int
  techProjectCurrentId : Int
deriving DecidableEq

/-- The state after the reset at the top of the seeding routine
(initializeData): all collections cleared and every id counter reset to 1. -/
def initStore : MemStorage :=
  { technologies := [], quadrants := [], rings := [], projects := []
    technologyProjects := []
    techCurrentId := 1, quadrantCurrentId := 1, ringCurrentId := 1
    projectCurrentId := 1, techProjectCurrentId := 1 }

/-- getTechnology(id). -/
def getTechnology (st : MemStorage) (id : Int) : Option Technology :=
  mapGet st.technologies id

/-- getTechnologies(): all technologies in insertion order. -/
def getTechnologies (st : MemStorage) : List Technology :=
  mapValues st.technologies

/-- searchTechnologies(query): an empty or whitespace-only query returns the
full list; otherwise the technologies whose lowercased name, description or
some lowercased tag contains the lowercased query. -/
def searchTechnologies (st : MemStorage) (query : String) : List Technology :=
  if query = "" ∨ jsTrim query = "" then
    getTechnologies st
  else
    let lowerQuery := jsToLower query
    (mapValues st.technologies).filter fun tech =>
      let nameMatch := strIncludes (jsToLower tech.name) lowerQuery
      let descMatch := strIncludes (jsToLower tech.description) lowerQuery
      let tagsMatch := match tech.tags with
        | some tags => tags.any fun tag => strIncludes (jsToLower tag) lowerQuery
        | none => false
      nameMatch || descMatch || tagsMatch

/-- createTechnology(insertTechnology): take the next technology id, fill the
optional fields through JavaScript's `||` defaults (a falsy website or
custom_properties becomes null, absent/null tags become the empty array),
store and return the entity. -/
def createTechnology (st : MemStorage) (ins : InsertTechnology) :
    Technology × MemStorage :=
  let id := st.techCurrentId
  let technology : Technology :=
    { id := id
      name := ins.name
      description := ins.description
      quadrant := ins.quadrant
      ring := ins.ring
      website := jsFalsyOrNone ins.website
      tags := some (ins.tags.getD [])
      custom_properties := jsFalsyOrNone ins.custom_properties }
  (technology,
    { st with technologies := mapSet st.technologies id technology
              techCurrentId := st.techCurrentId + 1 })

/-- updateTechnology(id, technologyUpdate): shallow spread merge of the named
fields onto the existing entity, or undefined when the id is absent.  The
payload carries no id, so the merged entity keeps the existing id. -/
def updateTechnology (st : MemStorage) (id : Int) (u : TechnologyUpdate) :
    Option Technology × MemStorage :=
  match mapGet st.technologies id with
  | none => (none, st)
  | some t =>
    let t' : Technology :=
      { id := t.id
        name := u.name.getD t.name
        description := u.description.getD t.description
        quadrant := u.quadrant.getD t.quadrant
        ring := u.ring.getD t.ring
        website := u.website.getD t.website
        tags := u.tags.getD t.tags
        custom_properties := u.custom_properties.getD t.custom_properties }
    (some t', { st with technologies := mapSet st.technologies id t' })

/-- getQuadrant(id). -/
def getQuadrant (st : MemStorage) (id : Int) : Option Quadrant :=
  mapGet st.quadrants id

/-- getQuadrants(). -/
def getQuadrants (st : MemStorage) : List Quadrant :=
  mapValues st.quadrants

/-- createQuadrant(insertQuadrant). -/
def createQuadrant (st : MemStorage) (ins : InsertQuadrant) :
    Quadrant × MemStorage :=
  let id := st.quadrantCurrentId
  let quadrant : Quadrant :=
    { id := id, name := ins.name, description := ins.description
      color := jsFalsyOrNone ins.color }
  (quadrant,
    { st with quadrants := mapSet st.quadrants id quadrant
              quadrantCurrentId := st.quadrantCurrentId + 1 })

/-- updateQuadrant(id, quadrantUpdate). -/
def updateQuadrant (st : MemStorage) (id : Int) (u : QuadrantUpdate) :
    Option Quadrant × MemStorage :=
  match mapGet st.quadrants id with
  | none => (none, st)
  | some t =>
    let t' : Quadrant :=
      { id := t.id
        name := u.name.getD t.name
        description := u.description.getD t.description
        color := u.color.getD t.color }
    (some t', { st with quadrants := mapSet st.quadrants id t' })

/-- getRing(id). -/
def getRing (st : MemStorage) (id : Int) : Option Ring :=
  mapGet st.rings id

/-- getRings(). -/
def getRings (st : MemStorage) : List Ring :=
  mapValues st.rings

/-- createRing(insertRing). -/
def createRing (st : MemStorage) (ins : InsertRing) : Ring × MemStorage :=
  let id := st.ringCurrentId
  let ring : Ring :=
    { id := id, name := ins.name, description := ins.description
      color := jsFalsyOrNone ins.color }
  (ring,
    { st with rings := mapSet st.rings id ring
              ringCurrentId := st.ringCurrentId + 1 })

/-- updateRing(id, ringUpdate). -/
def updateRing (st : MemStorage) (id : Int) (u : RingUpdate) :
    Option Ring × MemStorage :=
  match mapGet st.rings id with
  | none => (none, st)
  | some t =>
    let t' : Ring :=
      { id := t.id
        name := u.name.getD t.name
        description := u.description.getD t.description
        color := u.color.getD t.color }
    (some t', { st with rings := mapSet st.rings id t' })

/-- Modelled from the spec: getProject(id) is declared in the repository but
its body is not among the staged files; the spec states the uniform
"entity or explicit not-found" get pattern across all five collections. -/
def getProject (st : MemStorage) (id : Int) : Option Project :=
  mapGet st.projects id

/-- Modelled from the spec: getProjects(), the uniform list() pattern. -/
def getProjects (st : MemStorage) : List Project :=
  mapValues st.projects

/-- Modelled from the spec: createProject, whose body is not among the staged
files.  The spec states the uniform create pattern: assign the next project
id, fill unset optional fields with null, store and return the full entity. -/
def createProject (st : MemStorage) (ins : InsertProject) :
    Project × MemStorage :=
  let id := st.projectCurrentId
  let project : Project :=
    { id := id, name := ins.name, description := ins.description
      status := ins.status, website := ins.website
      repository := ins.repository, image := ins.image }
  (project,
    { st with projects := mapSet st.projects id project
              projectCurrentId := st.projectCurrentId + 1 })

/-- Modelled from the spec: updateProject, the uniform shallow-merge update
pattern (fields named in the payload overwrite, the rest are preserved,
not-found for a missing id). -/
def updateProject (st : MemStorage) (id : Int) (u : ProjectUpdate) :
    Option Project × MemStorage :=
  match mapGet st.projects id with
  | none => (none, st)
  | some t =>
    let t' : Project :=
      { id := t.id
        name := u.name.getD t.name
        description := u.description.getD t.description
        status := u.status.getD t.status
        website := u.website.getD t.website
        repository := u.repository.getD t.repository
        image := u.image.getD t.image }
    (some t', { st with projects := mapSet st.projects id t' })

/-- Modelled from the spec: the get of a single technology-project link, the
uniform "entity or explicit not-found" pattern. -/
def getTechnologyProject (st : MemStorage) (id : Int) :
    Option TechnologyProject :=
  mapGet st.technologyProjects id

/-- Modelled from the spec: the list of technology-project links. -/
def getTechnologyProjects (st : MemStorage) : List TechnologyProject :=
  mapValues st.technologyProjects

/-- Modelled from the spec: linkTechnologyToProject, whose body is not among
the staged files; the spec states it follows the same create-with-id
pattern as the other collections (with no referential check). -/
def linkTechnologyToProject (st : MemStorage) (ins : InsertTechnologyProject) :
    TechnologyProject × MemStorage :=
  let id := st.techProjectCurrentId
  let link : TechnologyProject :=
    { id := id, technology_id := ins.technology_id
      project_id := ins.project_id, notes := ins.notes }
  (link,
    { st with technologyProjects := mapSet st.technologyProjects id link
              techProjectCurrentId := st.techProjectCurrentId + 1 })

/-- Modelled from the spec: the uniform shallow-merge update pattern applied
to technology-project links. -/
def updateTechnologyProject (st : MemStorage) (id : Int)
    (u : TechnologyProjectUpdate) :
    Option TechnologyProject × MemStorage :=
  match mapGet st.technologyProjects id with
  | none => (none, st)
  | some t =>
    let t' : TechnologyProject :=
      { id := t.id
        technology_id := u.technology_id.getD t.technology_id
        project_id := u.project_id.getD t.project_id
        notes := u.notes.getD t.notes }
    (some t', { st with technologyProjects := mapSet st.technologyProjects id t' })

/-- Reading back the key just written returns the value just written. -/
theorem mapGet_mapSet_self {α : Type} (m : List (Int × α)) (k : Int) (v : α) :
    mapGet (mapSet m k v) k = some v := by
  induction m with
  | nil => simp [mapGet, mapSet]
  | cons p rest ih =>
    by_cases h : p.1 = k
    · simp [mapGet, mapSet, h]
    · simp [mapGet, mapSet, h, ih]

/-- A missing key means no entry carries it. -/
theorem mapGet_eq_none_iff {α : Type} (m : List (Int × α)) (k : Int) :
    mapGet m k = none ↔ ∀ p ∈ m, p.1 ≠ k := by
  induction m with
  | nil => simp [mapGet]
  | cons p rest ih =>
    by_cases h : p.1 = k
    · simp [mapGet, h]
    · simp [mapGet, h, ih]

/-- A found value is a stored entry under the requested key. -/
theorem mapGet_eq_some_mem {α : Type} (m : List (Int × α)) (k : Int) (v : α)
    (h : mapGet m k = some v) : (k, v) ∈ m := by
  induction m with
  | nil => simp [mapGet] at h
  | cons p rest ih =>
    by_cases hk : p.1 = k
    · rw [mapGet, if_pos hk] at h
      have : p = (k, v) := by
        cases p
        simp_all
      simp [this]
    · rw [mapGet, if_neg hk] at h
      exact List.mem_cons_of_mem _ (ih h)

/-- Writing a key preserves a pointwise property of the entries when the new
entry satisfies it. -/
theorem all_mapSet {α : Type} (p : Int × α → Bool) (m : List (Int × α))
    (k : Int) (v : α) (hv : p (k, v) = true) (hm : m.all p = true) :
    (mapSet m k v).all p = true := by
  induction m with
  | nil => simpa [mapSet]
  | cons q rest ih =>
    simp only [List.all_cons, Bool.and_eq_true] at hm
    by_cases h : q.1 = k
    · simp [mapSet, h, hv, hm.2]
    · simp [mapSet, h, hm.1, ih hm.2]

/-- A prefix test on character lists is exactly the existence of a remainder. -/
theorem startsWithChars_iff (pat : List Char) :
    ∀ s, startsWithChars s pat = true ↔ ∃ r, pat ++ r = s := by
  induction pat with
  | nil => intro s; simp [startsWithChars]
  | cons p ps ih =>
    intro s
    cases s with
    | nil =>
      simp [startsWithChars]
    | cons c cs =>
      simp only [startsWithChars, Bool.and_eq_true, beq_iff_eq, ih,
        List.cons_append, List.cons.injEq]
      constructor
      · rintro ⟨h1, r, h2⟩
        exact ⟨r, h1.symm, h2⟩
      · rintro ⟨r, h1, h2⟩
        exact ⟨h1.symm, r, h2⟩

/-- The occurrence scan is exactly contiguous containment. -/
theorem containsChars_iff (pat : List Char) :
    ∀ s, containsChars s pat = true ↔ ∃ l r, l ++ pat ++ r = s := by
  intro s
  induction s with
  | nil =>
    simp only [containsChars, startsWithChars_iff]
    constructor
    · rintro ⟨r, h⟩
      exact ⟨[], r, h⟩
    · rintro ⟨l, r, h⟩
      refine ⟨r, ?_⟩
      have hl : l = [] := by
        cases l with
        | nil => rfl
        | cons a as => simp at h
      subst hl
      simpa using h
  | cons c cs ih =>
    simp only [containsChars, Bool.or_eq_true, startsWithChars_iff, ih]
    constructor
    · rintro (⟨r, h⟩ | ⟨l, r, h⟩)
      · exact ⟨[], r, by simpa using h⟩
      · exact ⟨c :: l, r, by simp [h]⟩
    · rintro ⟨l, r, h⟩
      cases l with
      | nil => exact Or.inl ⟨r, by simpa using h⟩
      | cons x xs =>
        right
        refine ⟨xs, r, ?_⟩
        simp only [List.cons_append, List.cons.injEq] at h
        exact h.2

/-- The string-level inclusion test agrees with the substring relation. -/
theorem strIncludes_iff (s pat : String) :
    strIncludes s pat = true ↔ SubstringOf pat s := by
  simpa [strIncludes, SubstringOf] using containsChars_iff pat.toList s.toList

/-- A small concrete store: the reset state after creating the seeded
technologies "Docker" and "Docker Compose" (their seed fields, without the
opaque custom-properties blob). -/
def demoStore : MemStorage :=
  (createTechnology
    (createTechnology initStore
      { name := "Docker"
        description := "A platform for developing, shipping, and running applications in containers."
        quadrant := 1
        ring := 0
        website := some "https://www.docker.com"
        tags := some ["container", "devops", "deployment"] }).2
    { name := "Docker Compose"
      description := "A tool for defining and running multi-container Docker applications."
      quadrant := 1
      ring := 0
      website := some "https://docs.docker.com/compose"
      tags := some ["container", "docker", "configuration"] }).2

/-- The first technology of `demoStore`. -/
def dockerTech : Technology :=
  (createTechnology initStore
    { name := "Docker"
      description := "A platform for developing, shipping, and running applications in containers."
      quadrant := 1
      ring := 0
      website := some "https://www.docker.com"
      tags := some ["container", "devops", "deployment"] }).1

/-- Claim C1: for every collection (technologies, quadrants, rings, projects,
technology-project links) and every input, get with the id returned by
create, immediately after that create and with no intervening operations,
returns the entity that create returned. -/
theorem c1_get_after_create (st : MemStorage)
    (iT : InsertTechnology) (iQ : InsertQuadrant) (iR : InsertRing)
    (iP : InsertProject) (iL : InsertTechnologyProject) :
    getTechnology (createTechnology st iT).2 (createTechnology st iT).1.id
        = some (createTechnology st iT).1 ∧
    getQuadrant (createQuadrant st iQ).2 (createQuadrant st iQ).1.id
        = some (createQuadrant st iQ).1 ∧
    getRing (createRing st iR).2 (createRing st iR).1.id
        = some (createRing st iR).1 ∧
    getProject (createProject st iP).2 (createProject st iP).1.id
        = some (createProject st iP).1 ∧
    getTechnologyProject (linkTechnologyToProject st iL).2
        (linkTechnologyToProject st iL).1.id
        = some (linkTechnologyToProject st iL).1 :=
  ⟨mapGet_mapSet_self _ _ _, mapGet_mapSet_self _ _ _, mapGet_mapSet_self _ _ _,
   mapGet_mapSet_self _ _ _, mapGet_mapSet_self _ _ _⟩

/-- Claim C3: searching with the empty string, or with a string whose trim is
empty (whitespace only), returns the full technology list, equal and in the
same order as getTechnologies. -/
theorem c3_blank_query_returns_all (st : MemStorage) (query : String)
    (h : query = "" ∨ jsTrim query = "") :
    searchTechnologies st query = getTechnologies st := by
  rw [searchTechnologies, if_pos h]

/-- Witness for C3 at the whitespace-only query on a concrete store. -/
theorem c3_blank_query_returns_all_w :
    searchTechnologies demoStore "   " = getTechnologies demoStore :=
  c3_blank_query_returns_all demoStore "   " (by decide)

/-- Claim C2: for every query that is neither empty nor whitespace-only, a
technology is in searchTechnologies exactly when it is a stored technology
and the lowercased query is a substring of its lowercased name, or of its
lowercased description, or of the lowercasing of at least one of its tags. -/
theorem c2_search_match_semantics (st : MemStorage) (query : String)
    (h : ¬(query = "" ∨ jsTrim query = "")) (tech : Technology) :
    tech ∈ searchTechnologies st query ↔
      tech ∈ getTechnologies st ∧
        (SubstringOf (jsToLower query) (jsToLower tech.name) ∨
         SubstringOf (jsToLower query) (jsToLower tech.description) ∨
         ∃ tag ∈ tech.tags.getD [],
           SubstringOf (jsToLower query) (jsToLower tag)) := by
  rw [searchTechnologies, if_neg h]
  simp only [getTechnologies, List.mem_filter, Bool.or_eq_true, strIncludes_iff]
  cases htags : tech.tags with
  | none => simp [htags]
  | some tags => simp [htags, List.any_eq_true, strIncludes_iff, or_assoc]

/-- Witness for C2: the seeded "Docker" technology is found by the query
"docker" on the demo store, through its name. -/
theorem c2_search_match_semantics_w :
    dockerTech ∈ searchTechnologies demoStore "docker" :=
  (c2_search_match_semantics demoStore "docker" (by decide) dockerTech).mpr
    ⟨by decide, Or.inl ⟨[], [], by decide⟩⟩

/-- Claim C4: for every existing id and every update payload, update merges
shallowly: every field named in the payload (an explicit null included) takes
the new value in the returned and stored entity, every field not named is
unchanged, for each of the five collections. -/
theorem c4_update_shallow_merge :
    (∀ (st : MemStorage) (id : Int) (u : TechnologyUpdate) (t : Technology),
      mapGet st.technologies id = some t →
        (updateTechnology st id u).1 =
          some { id := t.id
                 name := u.name.getD t.name
                 description := u.description.getD t.description
                 quadrant := u.quadrant.getD t.quadrant
                 ring := u.ring.getD t.ring
                 website := u.website.getD t.website
                 tags := u.tags.getD t.tags
                 custom_properties := u.custom_properties.getD t.custom_properties } ∧
        mapGet (updateTechnology st id u).2.technologies id =
          (updateTechnology st id u).1) ∧
    (∀ (st : MemStorage) (id : Int) (u : QuadrantUpdate) (t : Quadrant),
      mapGet st.quadrants id = some t →
        (updateQuadrant st id u).1 =
          some { id := t.id
                 name := u.name.getD t.name
                 description := u.description.getD t.description
                 color := u.color.getD t.color } ∧
        mapGet (updateQuadrant st id u).2.quadrants id =
          (updateQuadrant st id u).1) ∧
    (∀ (st : MemStorage) (id : Int) (u : RingUpdate) (t : Ring),
      mapGet st.rings id = some t →
        (updateRing st id u).1 =
          some { id := t.id
                 name := u.name.getD t.name
                 description := u.description.getD t.description
                 color := u.color.getD t.color } ∧
        mapGet (updateRing st id u).2.rings id = (updateRing st id u).1) ∧
    (∀ (st : MemStorage) (id : Int) (u : ProjectUpdate) (t : Project),
      mapGet st.projects id = some t →
        (updateProject st id u).1 =
          some { id := t.id
                 name := u.name.getD t.name
                 description := u.description.getD t.description
                 status := u.status.getD t.status
                 website := u.website.getD t.website
                 repository := u.repository.getD t.repository
                 image := u.image.getD t.image } ∧
        mapGet (updateProject st id u).2.projects id =
          (updateProject st id u).1) ∧
    (∀ (st : MemStorage) (id : Int) (u : TechnologyProjectUpdate)
        (t : TechnologyProject),
      mapGet st.technologyProjects id = some t →
        (updateTechnologyProject st id u).1 =
          some { id := t.id
                 technology_id := u.technology_id.getD t.technology_id
                 project_id := u.project_id.getD t.project_id
                 notes := u.notes.getD t.notes } ∧
        mapGet (updateTechnologyProject st id u).2.technologyProjects id =
          (updateTechnologyProject st id u).1) := by
  refine ⟨?_, ?_, ?_, ?_, ?_⟩ <;>
  · intro st id u t h
    simp only [updateTechnology, updateQuadrant, updateRing, updateProject,
      updateTechnologyProject, h]
    exact ⟨trivial, mapGet_mapSet_self _ _ _⟩

/-- Claim C5: for every id absent from a collection and every update payload,
update returns the explicit not-found value and leaves the whole store state
unchanged (no entity touched, no counter advanced), for each collection. -/
theorem c5_update_missing_id :
    (∀ (st : MemStorage) (id : Int) (u : TechnologyUpdate),
        mapGet st.technologies id = none →
          updateTechnology st id u = (none, st)) ∧
    (∀ (st : MemStorage) (id : Int) (u : QuadrantUpdate),
        mapGet st.quadrants id = none → updateQuadrant st id u = (none, st)) ∧
    (∀ (st : MemStorage) (id : Int) (u : RingUpdate),
        mapGet st.rings id = none → updateRing st id u = (none, st)) ∧
    (∀ (st : MemStorage) (id : Int) (u : ProjectUpdate),
        mapGet st.projects id = none → updateProject st id u = (none, st)) ∧
    (∀ (st : MemStorage) (id : Int) (u : TechnologyProjectUpdate),
        mapGet st.technologyProjects id = none →
          updateTechnologyProject st id u = (none, st)) := by
  refine ⟨?_, ?_, ?_, ?_, ?_⟩ <;>
  · intro st id u h
    simp only [updateTechnology, updateQuadrant, updateRing, updateProject,
      updateTechnologyProject, h]

/-- The store after seeding the four quadrants and the four rings with the
exact inputs of the seeding routine. -/
def seededQR : MemStorage :=
  let s := initStore
  let s := (createQuadrant s
    { name := "Techniques"
      description := "Elements of a software development process, such as experience design and coding practices"
      color := some "#3b82f6" }).2
  let s := (createQuadrant s
    { name := "Tools"
      description := "Software development tools and supporting services"
      color := some "#8b5cf6" }).2
  let s := (createQuadrant s
    { name := "Frameworks"
      description := "Programming frameworks and foundation libraries"
      color := some "#f97316" }).2
  let s := (createQuadrant s
    { name := "Platforms"
      description := "Things that we build software on top of: infrastructure, databases, etc."
      color := some "#ec4899" }).2
  let s := (createRing s
    { name := "Adopt"
      description := "We strongly recommend using these technologies when appropriate"
      color := some "#10b981" }).2
  let s := (createRing s
    { name := "Trial"
      description := "These technologies are ready for trial use, but not yet for widespread adoption"
      color := some "#3b82f6" }).2
  let s := (createRing s
    { name := "Assess"
      description := "These technologies are worth exploring to understand how they can be useful"
      color := some "#f59e0b" }).2
  let s := (createRing s
    { name := "Hold"
      description := "Proceed with caution with these technologies"
      color := some "#ef4444" }).2
  s

/-- The scenario insert of claim C7: Kubernetes in quadrant 2, ring 0, with no
optional field (the required description is left open). -/
def kubeIns (d : String) : InsertTechnology :=
  { name := "Kubernetes", description := d, quadrant := 2, ring := 0 }

/-- Claim C7: in a store seeded with the four quadrants and four rings,
creating Kubernetes with quadrant 2 and ring 0 and no optional fields, then
getting the returned id, yields the created entity with quadrant 2, ring 0,
the empty (non-null) tag array, a null website and null custom properties. -/
theorem c7_scenario_defaults (d : String) :
    getTechnology (createTechnology seededQR (kubeIns d)).2
        (createTechnology seededQR (kubeIns d)).1.id
      = some (createTechnology seededQR (kubeIns d)).1 ∧
    (createTechnology seededQR (kubeIns d)).1.quadrant = 2 ∧
    (createTechnology seededQR (kubeIns d)).1.ring = 0 ∧
    (createTechnology seededQR (kubeIns d)).1.tags = some [] ∧
    (createTechnology seededQR (kubeIns d)).1.website = none ∧
    (createTechnology seededQR (kubeIns d)).1.custom_properties = none :=
  ⟨mapGet_mapSet_self _ _ _, rfl, rfl, rfl, rfl, rfl⟩

/-- Claim C8: for every id, present or absent, negative included, get is a
total function into an explicit optional value: it returns none exactly when
no stored entry carries the id, and a returned entity is the stored entry
under that id — for each of the five collections. -/
theorem c8_get_total_optional (st : MemStorage) (id : Int) :
    ((getTechnology st id = none ↔ ∀ p ∈ st.technologies, p.1 ≠ id) ∧
      ∀ t, getTechnology st id = some t → (id, t) ∈ st.technologies) ∧
    ((getQuadrant st id = none ↔ ∀ p ∈ st.quadrants, p.1 ≠ id) ∧
      ∀ t, getQuadrant st id = some t → (id, t) ∈ st.quadrants) ∧
    ((getRing st id = none ↔ ∀ p ∈ st.rings, p.1 ≠ id) ∧
      ∀ t, getRing st id = some t → (id, t) ∈ st.rings) ∧
    ((getProject st id = none ↔ ∀ p ∈ st.projects, p.1 ≠ id) ∧
      ∀ t, getProject st id = some t → (id, t) ∈ st.projects) ∧
    ((getTechnologyProject st id = none ↔
        ∀ p ∈ st.technologyProjects, p.1 ≠ id) ∧
      ∀ t, getTechnologyProject st id = some t →
        (id, t) ∈ st.technologyProjects) :=
  ⟨⟨mapGet_eq_none_iff _ _, fun _ h => mapGet_eq_some_mem _ _ _ h⟩,
   ⟨mapGet_eq_none_iff _ _, fun _ h => mapGet_eq_some_mem _ _ _ h⟩,
   ⟨mapGet_eq_none_iff _ _, fun _ h => mapGet_eq_some_mem _ _ _ h⟩,
   ⟨mapGet_eq_none_iff _ _, fun _ h => mapGet_eq_some_mem _ _ _ h⟩,
   ⟨mapGet_eq_none_iff _ _, fun _ h => mapGet_eq_some_mem _ _ _ h⟩⟩

/-- Claim C10: createTechnology coerces provided-but-falsy optional fields to
their defaults: an empty-string website becomes null in the returned and
stored entity, an empty-string custom_properties becomes null, while an
explicitly provided empty tag array is preserved as the empty array. -/
theorem c10_falsy_fields_defaulted :
    (∀ (st : MemStorage) (ins : InsertTechnology), ins.website = some "" →
        (createTechnology st ins).1.website = none ∧
        mapGet (createTechnology st ins).2.technologies
            (createTechnology st ins).1.id = some (createTechnology st ins).1) ∧
    (∀ (st : MemStorage) (ins : InsertTechnology),
        ins.custom_properties = some "" →
          (createTechnology st ins).1.custom_properties = none) ∧
    (∀ (st : MemStorage) (ins : InsertTechnology), ins.tags = some [] →
        (createTechnology st ins).1.tags = some []) := by
  refine ⟨fun st ins h => ⟨?_, mapGet_mapSet_self _ _ _⟩,
    fun st ins h => ?_, fun st ins h => ?_⟩ <;>
    simp [createTechnology, h, jsFalsyOrNone]

/-- One mutating operation of the store's contract: a create or an update on
one of the five collections. -/
inductive Op where
  | cTech : InsertTechnology → Op
  | cQuad : InsertQuadrant → Op
  | cRing : InsertRing → Op
  | cProj : InsertProject → Op
  | cLink : InsertTechnologyProject → Op
  | uTech : Int → TechnologyUpdate → Op
  | uQuad : Int → QuadrantUpdate → Op
  | uRing : Int → RingUpdate → Op
  | uProj : Int → ProjectUpdate → Op
  | uLink : Int → TechnologyProjectUpdate → Op

/-- The store after one operation. -/
def applyOp (st : MemStorage) : Op → MemStorage
  | .cTech i => (createTechnology st i).2
  | .cQuad i => (createQuadrant st i).2
  | .cRing i => (createRing st i).2
  | .cProj i => (createProject st i).2
  | .cLink i => (linkTechnologyToProject st i).2
  | .uTech id u => (updateTechnology st id u).2
  | .uQuad id u => (updateQuadrant st id u).2
  | .uRing id u => (updateRing st id u).2
  | .uProj id u => (updateProject st id u).2
  | .uLink id u => (updateTechnologyProject st id u).2

/-- The store after a sequence of operations. -/
def runOps (st : MemStorage) : List Op → MemStorage
  | [] => st
  | op :: ops => runOps (applyOp st op) ops

/-- Is the operation a create (rather than an update)? -/
def opIsCreate : Op → Bool
  | .cTech _ => true
  | .cQuad _ => true
  | .cRing _ => true
  | .cProj _ => true
  | .cLink _ => true
  | .uTech _ _ => false
  | .uQuad _ _ => false
  | .uRing _ _ => false
  | .uProj _ _ => false
  | .uLink _ _ => false

/-- The ids returned by the technology creates of a run, in call order. -/
def techIdsOf (st : MemStorage) : List Op → List Int
  | [] => []
  | op :: ops =>
    match op with
    | .cTech i => (createTechnology st i).1.id :: techIdsOf (applyOp st op) ops
    | _ => techIdsOf (applyOp st op) ops

/-- The ids returned by the quadrant creates of a run, in call order. -/
def quadIdsOf (st : MemStorage) : List Op → List Int
  | [] => []
  | op :: ops =>
    match op with
    | .cQuad i => (createQuadrant st i).1.id :: quadIdsOf (applyOp st op) ops
    | _ => quadIdsOf (applyOp st op) ops

/-- The ids returned by the ring creates of a run, in call order. -/
def ringIdsOf (st : MemStorage) : List Op → List Int
  | [] => []
  | op :: ops =>
    match op with
    | .cRing i => (createRing st i).1.id :: ringIdsOf (applyOp st op) ops
    | _ => ringIdsOf (applyOp st op) ops

/-- The ids returned by the project creates of a run, in call order. -/
def projIdsOf (st : MemStorage) : List Op → List Int
  | [] => []
  | op :: ops =>
    match op with
    | .cProj i => (createProject st i).1.id :: projIdsOf (applyOp st op) ops
    | _ => projIdsOf (applyOp st op) ops

/-- The ids returned by the link creates of a run, in call order. -/
def linkIdsOf (st : MemStorage) : List Op → List Int
  | [] => []
  | op :: ops =>
    match op with
    | .cLink i =>
      (linkTechnologyToProject st i).1.id :: linkIdsOf (applyOp st op) ops
    | _ => linkIdsOf (applyOp st op) ops

/-- How many technology creates a run holds. -/
def techCreateCount : List Op → Nat
  | [] => 0
  | .cTech _ :: ops => techCreateCount ops + 1
  | _ :: ops => techCreateCount ops

/-- How many quadrant creates a run holds. -/
def quadCreateCount : List Op → Nat
  | [] => 0
  | .cQuad _ :: ops => quadCreateCount ops + 1
  | _ :: ops => quadCreateCount ops

/-- How many ring creates a run holds. -/
def ringCreateCount : List Op → Nat
  | [] => 0
  | .cRing _ :: ops => ringCreateCount ops + 1
  | _ :: ops => ringCreateCount ops

/-- How many project creates a run holds. -/
def projCreateCount : List Op → Nat
  | [] => 0
  | .cProj _ :: ops => projCreateCount ops + 1
  | _ :: ops => projCreateCount ops

/-- How many link creates a run holds. -/
def linkCreateCount : List Op → Nat
  | [] => 0
  | .cLink _ :: ops => linkCreateCount ops + 1
  | _ :: ops => linkCreateCount ops

/-- The k consecutive integers n, n+1, ..., n+k-1. -/
def idsFrom (n : Int) : Nat → List Int
  | 0 => []
  | k + 1 => n :: idsFrom (n + 1) k

/-- A collection's id trace is correct when it is exactly 1, 2, ..., k and so
strictly increasing with no reuse. -/
def consecutiveFromOne (ids : List Int) (k : Nat) : Prop :=
  ids = idsFrom 1 k ∧ List.Pairwise (fun a b => a < b) ids

/-- Updating a technology advances no id counter. -/
theorem updateTechnology_counters (st : MemStorage) (id : Int)
    (u : TechnologyUpdate) :
    (updateTechnology st id u).2.techCurrentId = st.techCurrentId ∧
    (updateTechnology st id u).2.quadrantCurrentId = st.quadrantCurrentId ∧
    (updateTechnology st id u).2.ringCurrentId = st.ringCurrentId ∧
    (updateTechnology st id u).2.projectCurrentId = st.projectCurrentId ∧
    (updateTechnology st id u).2.techProjectCurrentId
      = st.techProjectCurrentId := by
  cases h : mapGet st.technologies id <;> simp [updateTechnology, h]

/-- Updating a quadrant advances no id counter. -/
theorem updateQuadrant_counters (st : MemStorage) (id : Int)
    (u : QuadrantUpdate) :
    (updateQuadrant st id u).2.techCurrentId = st.techCurrentId ∧
    (updateQuadrant st id u).2.quadrantCurrentId = st.quadrantCurrentId ∧
    (updateQuadrant st id u).2.ringCurrentId = st.ringCurrentId ∧
    (updateQuadrant st id u).2.projectCurrentId = st.projectCurrentId ∧
    (updateQuadrant st id u).2.techProjectCurrentId
      = st.techProjectCurrentId := by
  cases h : mapGet st.quadrants id <;> simp [updateQuadrant, h]

/-- Updating a ring advances no id counter. -/
theorem updateRing_counters (st : MemStorage) (id : Int) (u : RingUpdate) :
    (updateRing st id u).2.techCurrentId = st.techCurrentId ∧
    (updateRing st id u).2.quadrantCurrentId = st.quadrantCurrentId ∧
    (updateRing st id u).2.ringCurrentId = st.ringCurrentId ∧
    (updateRing st id u).2.projectCurrentId = st.projectCurrentId ∧
    (updateRing st id u).2.techProjectCurrentId = st.techProjectCurrentId := by
  cases h : mapGet st.rings id <;> simp [updateRing, h]

/-- Updating a project advances no id counter. -/
theorem updateProject_counters (st : MemStorage) (id : Int)
    (u : ProjectUpdate) :
    (updateProject st id u).2.techCurrentId = st.techCurrentId ∧
    (updateProject st id u).2.quadrantCurrentId = st.quadrantCurrentId ∧
    (updateProject st id u).2.ringCurrentId = st.ringCurrentId ∧
    (updateProject st id u).2.projectCurrentId = st.projectCurrentId ∧
    (updateProject st id u).2.techProjectCurrentId
      = st.techProjectCurrentId := by
  cases h : mapGet st.projects id <;> simp [updateProject, h]

/-- Updating a link advances no id counter. -/
theorem updateTechnologyProject_counters (st : MemStorage) (id : Int)
    (u : TechnologyProjectUpdate) :
    (updateTechnologyProject st id u).2.techCurrentId = st.techCurrentId ∧
    (updateTechnologyProject st id u).2.quadrantCurrentId
      = st.quadrantCurrentId ∧
    (updateTechnologyProject st id u).2.ringCurrentId = st.ringCurrentId ∧
    (updateTechnologyProject st id u).2.projectCurrentId
      = st.projectCurrentId ∧
    (updateTechnologyProject st id u).2.techProjectCurrentId
      = st.techProjectCurrentId := by
  cases h : mapGet st.technologyProjects id <;>
    simp [updateTechnologyProject, h]

/-- The technology ids a run emits are the consecutive integers starting at
the technology counter. -/
theorem techIdsOf_eq (ops : List Op) :
    ∀ st : MemStorage,
      techIdsOf st ops = idsFrom st.techCurrentId (techCreateCount ops) := by
  induction ops with
  | nil => intro st; rfl
  | cons op ops ih =>
    intro st
    cases op with
    | cTech i =>
      simp [techIdsOf, techCreateCount, idsFrom, ih, applyOp, createTechnology]
    | cQuad i => simp [techIdsOf, techCreateCount, ih, applyOp, createQuadrant]
    | cRing i => simp [techIdsOf, techCreateCount, ih, applyOp, createRing]
    | cProj i => simp [techIdsOf, techCreateCount, ih, applyOp, createProject]
    | cLink i =>
      simp [techIdsOf, techCreateCount, ih, applyOp, linkTechnologyToProject]
    | uTech id u =>
      simp [techIdsOf, techCreateCount, ih, applyOp,
        (updateTechnology_counters st id u).1]
    | uQuad id u =>
      simp [techIdsOf, techCreateCount, ih, applyOp,
        (updateQuadrant_counters st id u).1]
    | uRing id u =>
      simp [techIdsOf, techCreateCount, ih, applyOp,
        (updateRing_counters st id u).1]
    | uProj id u =>
      simp [techIdsOf, techCreateCount, ih, applyOp,
        (updateProject_counters st id u).1]
    | uLink id u =>
      simp [techIdsOf, techCreateCount, ih, applyOp,
        (updateTechnologyProject_counters st id u).1]

/-- The quadrant ids a run emits are the consecutive integers starting at the
quadrant counter. -/
theorem quadIdsOf_eq (ops : List Op) :
    ∀ st : MemStorage,
      quadIdsOf st ops = idsFrom st.quadrantCurrentId (quadCreateCount ops) := by
  induction ops with
  | nil => intro st; rfl
  | cons op ops ih =>
    intro st
    cases op with
    | cTech i => simp [quadIdsOf, quadCreateCount, ih, applyOp, createTechnology]
    | cQuad i =>
      simp [quadIdsOf, quadCreateCount, idsFrom, ih, applyOp, createQuadrant]
    | cRing i => simp [quadIdsOf, quadCreateCount, ih, applyOp, createRing]
    | cProj i => simp [quadIdsOf, quadCreateCount, ih, applyOp, createProject]
    | cLink i =>
      simp [quadIdsOf, quadCreateCount, ih, applyOp, linkTechnologyToProject]
    | uTech id u =>
      simp [quadIdsOf, quadCreateCount, ih, applyOp,
        (updateTechnology_counters st id u).2.1]
    | uQuad id u =>
      simp [quadIdsOf, quadCreateCount, ih, applyOp,
        (updateQuadrant_counters st id u).2.1]
    | uRing id u =>
      simp [quadIdsOf, quadCreateCount, ih, applyOp,
        (updateRing_counters st id u).2.1]
    | uProj id u =>
      simp [quadIdsOf, quadCreateCount, ih, applyOp,
        (updateProject_counters st id u).2.1]
    | uLink id u =>
      simp [quadIdsOf, quadCreateCount, ih, applyOp,
        (updateTechnologyProject_counters st id u).2.1]

/-- The ring ids a run emits are the consecutive integers starting at the
ring counter. -/
theorem ringIdsOf_eq (ops : List Op) :
    ∀ st : MemStorage,
      ringIdsOf st ops = idsFrom st.ringCurrentId (ringCreateCount ops) := by
  induction ops with
  | nil => intro st; rfl
  | cons op ops ih =>
    intro st
    cases op with
    | cTech i => simp [ringIdsOf, ringCreateCount, ih, applyOp, createTechnology]
    | cQuad i => simp [ringIdsOf, ringCreateCount, ih, applyOp, createQuadrant]
    | cRing i =>
      simp [ringIdsOf, ringCreateCount, idsFrom, ih, applyOp, createRing]
    | cProj i => simp [ringIdsOf, ringCreateCount, ih, applyOp, createProject]
    | cLink i =>
      simp [ringIdsOf, ringCreateCount, ih, applyOp, linkTechnologyToProject]
    | uTech id u =>
      simp [ringIdsOf, ringCreateCount, ih, applyOp,
        (updateTechnology_counters st id u).2.2.1]
    | uQuad id u =>
      simp [ringIdsOf, ringCreateCount, ih, applyOp,
        (updateQuadrant_counters st id u).2.2.1]
    | uRing id u =>
      simp [ringIdsOf, ringCreateCount, ih, applyOp,
        (updateRing_counters st id u).2.2.1]
    | uProj id u =>
      simp [ringIdsOf, ringCreateCount, ih, applyOp,
        (updateProject_counters st id u).2.2.1]
    | uLink id u =>
      simp [ringIdsOf, ringCreateCount, ih, applyOp,
        (updateTechnologyProject_counters st id u).2.2.1]

/-- The project ids a run emits are the consecutive integers starting at the
project counter. -/
theorem projIdsOf_eq (ops : List Op) :
    ∀ st : MemStorage,
      projIdsOf st ops = idsFrom st.projectCurrentId (projCreateCount ops) := by
  induction ops with
  | nil => intro st; rfl
  | cons op ops ih =>
    intro st
    cases op with
    | cTech i => simp [projIdsOf, projCreateCount, ih, applyOp, createTechnology]
    | cQuad i => simp [projIdsOf, projCreateCount, ih, applyOp, createQuadrant]
    | cRing i => simp [projIdsOf, projCreateCount, ih, applyOp, createRing]
    | cProj i =>
      simp [projIdsOf, projCreateCount, idsFrom, ih, applyOp, createProject]
    | cLink i =>
      simp [projIdsOf, projCreateCount, ih, applyOp, linkTechnologyToProject]
    | uTech id u =>
      simp [projIdsOf, projCreateCount, ih, applyOp,
        (updateTechnology_counters st id u).2.2.2.1]
    | uQuad id u =>
      simp [projIdsOf, projCreateCount, ih, applyOp,
        (updateQuadrant_counters st id u).2.2.2.1]
    | uRing id u =>
      simp [projIdsOf, projCreateCount, ih, applyOp,
        (updateRing_counters st id u).2.2.2.1]
    | uProj id u =>
      simp [projIdsOf, projCreateCount, ih, applyOp,
        (updateProject_counters st id u).2.2.2.1]
    | uLink id u =>
      simp [projIdsOf, projCreateCount, ih, applyOp,
        (updateTechnologyProject_counters st id u).2.2.2.1]

/-- The link ids a run emits are the consecutive integers starting at the
link counter. -/
theorem linkIdsOf_eq (ops : List Op) :
    ∀ st : MemStorage,
      linkIdsOf st ops
        = idsFrom st.techProjectCurrentId (linkCreateCount ops) := by
  induction ops with
  | nil => intro st; rfl
  | cons op ops ih =>
    intro st
    cases op with
    | cTech i => simp [linkIdsOf, linkCreateCount, ih, applyOp, createTechnology]
    | cQuad i => simp [linkIdsOf, linkCreateCount, ih, applyOp, createQuadrant]
    | cRing i => simp [linkIdsOf, linkCreateCount, ih, applyOp, createRing]
    | cProj i => simp [linkIdsOf, linkCreateCount, ih, applyOp, createProject]
    | cLink i =>
      simp [linkIdsOf, linkCreateCount, idsFrom, ih, applyOp,
        linkTechnologyToProject]
    | uTech id u =>
      simp [linkIdsOf, linkCreateCount, ih, applyOp,
        (updateTechnology_counters st id u).2.2.2.2]
    | uQuad id u =>
      simp [linkIdsOf, linkCreateCount, ih, applyOp,
        (updateQuadrant_counters st id u).2.2.2.2]
    | uRing id u =>
      simp [linkIdsOf, linkCreateCount, ih, applyOp,
        (updateRing_counters st id u).2.2.2.2]
    | uProj id u =>
      simp [linkIdsOf, linkCreateCount, ih, applyOp,
        (updateProject_counters st id u).2.2.2.2]
    | uLink id u =>
      simp [linkIdsOf, linkCreateCount, ih, applyOp,
        (updateTechnologyProject_counters st id u).2.2.2.2]

/-- Every member of the consecutive block starting at n is at least n. -/
theorem mem_idsFrom (k : Nat) :
    ∀ (n m : Int), m ∈ idsFrom n k → n ≤ m := by
  induction k with
  | zero => intro n m h; simp [idsFrom] at h
  | succ k ih =>
    intro n m h
    rcases (by simpa [idsFrom] using h : m = n ∨ m ∈ idsFrom (n + 1) k) with
      h | h
    · omega
    · have := ih (n + 1) m h
      omega

/-- A consecutive block is strictly increasing. -/
theorem idsFrom_pairwise (k : Nat) :
    ∀ n : Int, List.Pairwise (fun a b => a < b) (idsFrom n k) := by
  induction k with
  | zero => intro n; simp [idsFrom]
  | succ k ih =>
    intro n
    refine List.pairwise_cons.mpr ⟨fun m hm => ?_, ih (n + 1)⟩
    have := mem_idsFrom k (n + 1) m hm
    omega

/-- Claim C6: over any sequence of create calls starting from the reset
state, each collection's returned ids are exactly 1, 2, 3, ..., strictly
increasing with no reuse, each collection's counter independent of the other
collections' creates interleaved in the same sequence. -/
theorem c6_ids_consecutive_per_collection (ops : List Op)
    (h : ∀ op ∈ ops, opIsCreate op = true) :
    consecutiveFromOne (techIdsOf initStore ops) (techCreateCount ops) ∧
    consecutiveFromOne (quadIdsOf initStore ops) (quadCreateCount ops) ∧
    consecutiveFromOne (ringIdsOf initStore ops) (ringCreateCount ops) ∧
    consecutiveFromOne (projIdsOf initStore ops) (projCreateCount ops) ∧
    consecutiveFromOne (linkIdsOf initStore ops) (linkCreateCount ops) := by
  have ht := techIdsOf_eq ops initStore
  have hq := quadIdsOf_eq ops initStore
  have hr := ringIdsOf_eq ops initStore
  have hp := projIdsOf_eq ops initStore
  have hl := linkIdsOf_eq ops initStore
  exact ⟨⟨ht, ht ▸ idsFrom_pairwise _ _⟩, ⟨hq, hq ▸ idsFrom_pairwise _ _⟩,
    ⟨hr, hr ▸ idsFrom_pairwise _ _⟩, ⟨hp, hp ▸ idsFrom_pairwise _ _⟩,
    ⟨hl, hl ▸ idsFrom_pairwise _ _⟩⟩

/-- A concrete mixed sequence of creates on all five collections. -/
def c6ops : List Op :=
  [Op.cTech { name := "a", description := "d", quadrant := 0, ring := 0 },
   Op.cQuad { name := "q", description := "d" },
   Op.cTech { name := "b", description := "d", quadrant := 1, ring := 1 },
   Op.cRing { name := "r", description := "d" },
   Op.cProj { name := "p", description := "d", status := "active" },
   Op.cLink { technology_id := 1, project_id := 1 },
   Op.cTech { name := "c", description := "d", quadrant := 0, ring := 1 }]

/-- Witness for C6 on a concrete mixed create sequence. -/
theorem c6_ids_consecutive_per_collection_w :
    consecutiveFromOne (techIdsOf initStore c6ops) (techCreateCount c6ops) ∧
    consecutiveFromOne (quadIdsOf initStore c6ops) (quadCreateCount c6ops) ∧
    consecutiveFromOne (ringIdsOf initStore c6ops) (ringCreateCount c6ops) ∧
    consecutiveFromOne (projIdsOf initStore c6ops) (projCreateCount c6ops) ∧
    consecutiveFromOne (linkIdsOf initStore c6ops) (linkCreateCount c6ops) :=
  c6_ids_consecutive_per_collection c6ops (by decide)

/-- Every stored entity's id field equals the map key it is stored under, in
each of the five collections. -/
def wellFormed (st : MemStorage) : Bool :=
  st.technologies.all (fun p => p.2.id == p.1) &&
  st.quadrants.all (fun p => p.2.id == p.1) &&
  st.rings.all (fun p => p.2.id == p.1) &&
  st.projects.all (fun p => p.2.id == p.1) &&
  st.technologyProjects.all (fun p => p.2.id == p.1)

/-- One operation preserves the id-equals-key property. -/
theorem wellFormed_applyOp (st : MemStorage) (op : Op)
    (h : wellFormed st = true) : wellFormed (applyOp st op) = true := by
  rw [wellFormed, Bool.and_eq_true, Bool.and_eq_true, Bool.and_eq_true,
    Bool.and_eq_true] at h
  obtain ⟨⟨⟨⟨h1, h2⟩, h3⟩, h4⟩, h5⟩ := h
  cases op with
  | cTech i =>
    simp only [applyOp, createTechnology, wellFormed, Bool.and_eq_true]
    exact ⟨⟨⟨⟨all_mapSet _ _ _ _ (by simp) h1, h2⟩, h3⟩, h4⟩, h5⟩
  | cQuad i =>
    simp only [applyOp, createQuadrant, wellFormed, Bool.and_eq_true]
    exact ⟨⟨⟨⟨h1, all_mapSet _ _ _ _ (by simp) h2⟩, h3⟩, h4⟩, h5⟩
  | cRing i =>
    simp only [applyOp, createRing, wellFormed, Bool.and_eq_true]
    exact ⟨⟨⟨⟨h1, h2⟩, all_mapSet _ _ _ _ (by simp) h3⟩, h4⟩, h5⟩
  | cProj i =>
    simp only [applyOp, createProject, wellFormed, Bool.and_eq_true]
    exact ⟨⟨⟨⟨h1, h2⟩, h3⟩, all_mapSet _ _ _ _ (by simp) h4⟩, h5⟩
  | cLink i =>
    simp only [applyOp, linkTechnologyToProject, wellFormed, Bool.and_eq_true]
    exact ⟨⟨⟨⟨h1, h2⟩, h3⟩, h4⟩, all_mapSet _ _ _ _ (by simp) h5⟩
  | uTech id u =>
    cases hm : mapGet st.technologies id with
    | none =>
      simp only [applyOp, updateTechnology, hm]
      rw [wellFormed, Bool.and_eq_true, Bool.and_eq_true, Bool.and_eq_true,
        Bool.and_eq_true]
      exact ⟨⟨⟨⟨h1, h2⟩, h3⟩, h4⟩, h5⟩
    | some t =>
      have hid : (t.id == id) = true :=
        List.all_eq_true.mp h1 (id, t) (mapGet_eq_some_mem _ _ _ hm)
      simp only [applyOp, updateTechnology, hm, wellFormed, Bool.and_eq_true]
      exact ⟨⟨⟨⟨all_mapSet _ _ _ _ hid h1, h2⟩, h3⟩, h4⟩, h5⟩
  | uQuad id u =>
    cases hm : mapGet st.quadrants id with
    | none =>
      simp only [applyOp, updateQuadrant, hm]
      rw [wellFormed, Bool.and_eq_true, Bool.and_eq_true, Bool.and_eq_true,
        Bool.and_eq_true]
      exact ⟨⟨⟨⟨h1, h2⟩, h3⟩, h4⟩, h5⟩
    | some t =>
      have hid : (t.id == id) = true :=
        List.all_eq_true.mp h2 (id, t) (mapGet_eq_some_mem _ _ _ hm)
      simp only [applyOp, updateQuadrant, hm, wellFormed, Bool.and_eq_true]
      exact ⟨⟨⟨⟨h1, all_mapSet _ _ _ _ hid h2⟩, h3⟩, h4⟩, h5⟩
  | uRing id u =>
    cases hm : mapGet st.rings id with
    | none =>
      simp only [applyOp, updateRing, hm]
      rw [wellFormed, Bool.and_eq_true, Bool.and_eq_true, Bool.and_eq_true,
        Bool.and_eq_true]
      exact ⟨⟨⟨⟨h1, h2⟩, h3⟩, h4⟩, h5⟩
    | some t =>
      have hid : (t.id == id) = true :=
        List.all_eq_true.mp h3 (id, t) (mapGet_eq_some_mem _ _ _ hm)
      simp only [applyOp, updateRing, hm, wellFormed, Bool.and_eq_true]
      exact ⟨⟨⟨⟨h1, h2⟩, all_mapSet _ _ _ _ hid h3⟩, h4⟩, h5⟩
  | uProj id u =>
    cases hm : mapGet st.projects id with
    | none =>
      simp only [applyOp, updateProject, hm]
      rw [wellFormed, Bool.and_eq_true, Bool.and_eq_true, Bool.and_eq_true,
        Bool.and_eq_true]
      exact ⟨⟨⟨⟨h1, h2⟩, h3⟩, h4⟩, h5⟩
    | some t =>
      have hid : (t.id == id) = true :=
        List.all_eq_true.mp h4 (id, t) (mapGet_eq_some_mem _ _ _ hm)
      simp only [applyOp, updateProject, hm, wellFormed, Bool.and_eq_true]
      exact ⟨⟨⟨⟨h1, h2⟩, h3⟩, all_mapSet _ _ _ _ hid h4⟩, h5⟩
  | uLink id u =>
    cases hm : mapGet st.technologyProjects id with
    | none =>
      simp only [applyOp, updateTechnologyProject, hm]
      rw [wellFormed, Bool.and_eq_true, Bool.and_eq_true, Bool.and_eq_true,
        Bool.and_eq_true]
      exact ⟨⟨⟨⟨h1, h2⟩, h3⟩, h4⟩, h5⟩
    | some t =>
      have hid : (t.id == id) = true :=
        List.all_eq_true.mp h5 (id, t) (mapGet_eq_some_mem _ _ _ hm)
      simp only [applyOp, updateTechnologyProject, hm, wellFormed,
        Bool.and_eq_true]
      exact ⟨⟨⟨⟨h1, h2⟩, h3⟩, h4⟩, all_mapSet _ _ _ _ hid h5⟩

/-- A whole run preserves the id-equals-key property. -/
theorem wellFormed_runOps (ops : List Op) :
    ∀ st : MemStorage, wellFormed st = true →
      wellFormed (runOps st ops) = true := by
  induction ops with
  | nil => intro st h; exact h
  | cons op ops ih => intro st h; exact ih _ (wellFormed_applyOp st op h)

/-- Claim C9: after any sequence of create and update operations from a
well-formed state, every stored entity's id equals the map key it is stored
under; and an update never changes an entity's id: the merged entity keeps
the id of the existing entity, in every collection. -/
theorem c9_id_matches_key_invariant :
    (∀ (st : MemStorage) (ops : List Op), wellFormed st = true →
        wellFormed (runOps st ops) = true) ∧
    (∀ (st : MemStorage) (id : Int) (u : TechnologyUpdate) t t',
        mapGet st.technologies id = some t →
        (updateTechnology st id u).1 = some t' → t'.id = t.id) ∧
    (∀ (st : MemStorage) (id : Int) (u : QuadrantUpdate) t t',
        mapGet st.quadrants id = some t →
        (updateQuadrant st id u).1 = some t' → t'.id = t.id) ∧
    (∀ (st : MemStorage) (id : Int) (u : RingUpdate) t t',
        mapGet st.rings id = some t →
        (updateRing st id u).1 = some t' → t'.id = t.id) ∧
    (∀ (st : MemStorage) (id : Int) (u : ProjectUpdate) t t',
        mapGet st.projects id = some t →
        (updateProject st id u).1 = some t' → t'.id = t.id) ∧
    (∀ (st : MemStorage) (id : Int) (u : TechnologyProjectUpdate) t t',
        mapGet st.technologyProjects id = some t →
        (updateTechnologyProject st id u).1 = some t' → t'.id = t.id) := by
  refine ⟨fun st ops h => wellFormed_runOps ops st h, ?_, ?_, ?_, ?_, ?_⟩ <;>
  · intro st id u t t' hget hupd
    simp only [updateTechnology, updateQuadrant, updateRing, updateProject,
      updateTechnologyProject, hget, Option.some.injEq] at hupd
    rw [← hupd]

end TechRadar
